import Mathlib

/-!
# Peer registration and resolution (`peers.go`)

A shallow embedding of `peers.go` of `udhos/groupcache`.

* A Go call either returns normally or panics: `Outcome`.
* The factories handed to the registration functions are arbitrary Go
  functions.  They are embedded as state transformers over a world `σ`
  (everything a factory may read or write), so that "the factory is invoked"
  is visible as its effect on the world.  A Go function value may also be
  `nil`; it is embedded as an `Option`, and calling `nil` panics.
* `ws *workspace` is embedded as the struct it points to, passed in and
  returned explicitly: every operation yields a `Step` holding its result,
  the workspace afterwards and the world afterwards.  A panic that is
  recovered by the caller leaves the workspace as the `Step` records it.
* The world does not contain the workspace: `portPicker` is unexported, a
  factory only runs once the slot is set, and both functions of `peers.go`
  that write the slot refuse to do so from then on.
* For registration calls that run at the same time, a call is split into its
  two statements, the check and the assignment (`RegThread.step`), and a
  schedule says which call steps next; two steps of one call are the call.
* For the default workspace and for several workspaces, workspaces live in a
  `Heap` and are reached through pointers; the operations `Heap.…` read the
  workspace behind the pointer, run the operation above and write it back.
-/

namespace Groupcache

/-- Result of a Go call: a normal return with a value, or a panic with its message. -/
inductive Outcome (α : Type) where
  | ok (a : α)
  | panicked (msg : String)
deriving DecidableEq, Repr

/-- True exactly on a normal return. -/
def Outcome.isOk {α : Type} : Outcome α → Bool
  | .ok _ => true
  | .panicked _ => false

/-- The `ProtoGetter` interface (a remote peer).  `Get`, `Remove` and `Set`
are transport calls that `peers.go` only declares; the peer is identified by
what `GetURL` returns. -/
structure ProtoGetter where
  GetURL : String
deriving DecidableEq, Repr

/-- The type `NoPeers struct{}`. -/
structure NoPeers where
deriving DecidableEq, Repr

/-- Method `func (NoPeers) PickPeer(key string) (peer ProtoGetter, ok bool) { return }`:
the named results keep their zero values, a nil peer and `false`. -/
def NoPeers.PickPeer (_ : NoPeers) (_key : String) : Option ProtoGetter × Bool :=
  (none, false)

/-- Method `func (NoPeers) GetAll() []ProtoGetter { return []ProtoGetter{} }`. -/
def NoPeers.GetAll (_ : NoPeers) : List ProtoGetter :=
  []

/-- Any implementation of the `PeerPicker` interface other than `NoPeers`,
given by its two methods.  `peers.go` never calls them on such a value, so
they are kept as plain functions. -/
structure PeerPickerImpl where
  PickPeer : String → Option ProtoGetter × Bool
  GetAll : List ProtoGetter

/-- A value of interface type `PeerPicker`: the nil interface, a `NoPeers{}`,
or a value of some other implementing type. -/
inductive PeerPicker where
  | nil
  | noPeers (v : NoPeers)
  | impl (p : PeerPickerImpl)

/-- The runtime error of calling a nil function or a method of a nil interface. -/
def nilDereference : String :=
  "runtime error: invalid memory address or nil pointer dereference"

/-- Interface method `PickPeer(key string) (peer ProtoGetter, ok bool)`,
dispatched on the dynamic type. -/
def PeerPicker.PickPeer (pk : PeerPicker) (key : String) : Outcome (Option ProtoGetter × Bool) :=
  match pk with
  | .nil => .panicked nilDereference
  | .noPeers v => .ok (v.PickPeer key)
  | .impl p => .ok (p.PickPeer key)

/-- Interface method `GetAll() []ProtoGetter`, dispatched on the dynamic type. -/
def PeerPicker.GetAll (pk : PeerPicker) : Outcome (List ProtoGetter) :=
  match pk with
  | .nil => .panicked nilDereference
  | .noPeers v => .ok v.GetAll
  | .impl p => .ok p.GetAll

/-- A Go function value of type `func() PeerPicker`: `none` is the nil
function, `some body` a function whose call runs `body` on the world. -/
abbrev UniformFunc (σ : Type) : Type :=
  Option (σ → Outcome PeerPicker × σ)

/-- A Go function value of type `func(groupName string) PeerPicker`. -/
abbrev PerGroupFunc (σ : Type) : Type :=
  Option (String → σ → Outcome PeerPicker × σ)

/-- The call `fn()` of a function value of type `func() PeerPicker`. -/
def callUniform {σ : Type} (fn : UniformFunc σ) (s : σ) : Outcome PeerPicker × σ :=
  match fn with
  | none => (.panicked nilDereference, s)
  | some body => body s

/-- The call `fn(groupName)` of a function value of type `func(string) PeerPicker`. -/
def callPerGroup {σ : Type} (fn : PerGroupFunc σ) (groupName : String) (s : σ) :
    Outcome PeerPicker × σ :=
  match fn with
  | none => (.panicked nilDereference, s)
  | some body => body groupName s

/-- Modelled from the spec: the struct type `workspace` is declared outside
`peers.go`.  The spec describes it as a registry "holding a single optional
router factory: a function from group name to PeerRouter"; `peers.go` reads and
writes that field as `ws.portPicker`, of type `func(string) PeerPicker`.  No
other field is touched by `peers.go`. -/
structure workspace (σ : Type) where
  portPicker : PerGroupFunc σ

/-- The two states of a workspace's factory slot. -/
inductive Slot where
  | Empty
  | Registered
deriving DecidableEq, Repr

/-- State of the factory slot: `Registered` exactly when `ws.portPicker != nil`. -/
def workspace.slot {σ : Type} (ws : workspace σ) : Slot :=
  match ws.portPicker with
  | none => .Empty
  | some _ => .Registered

/-- What an operation on `ws *workspace` leaves behind: its result, the
workspace afterwards and the world afterwards. -/
structure Step (σ α : Type) where
  result : Outcome α
  ws : workspace σ
  world : σ

/-- The message of the double-registration panic. -/
def calledMoreThanOnce : String :=
  "RegisterPeerPicker called more than once"

/-- Source `RegisterPeerPickerWithWorkspace(ws *workspace, fn func() PeerPicker)`:
panics when `ws.portPicker != nil`, else stores the closure
`func(_ string) PeerPicker { return fn() }`. -/
def RegisterPeerPickerWithWorkspace {σ : Type} (ws : workspace σ) (fn : UniformFunc σ) (s : σ) :
    Step σ Unit :=
  match ws.portPicker with
  | some _ => ⟨.panicked calledMoreThanOnce, ws, s⟩
  | none => ⟨.ok (), ⟨some (fun _ => callUniform fn)⟩, s⟩

/-- Source `RegisterPerGroupPeerPickerWithWorkspace(ws *workspace, fn func(groupName string) PeerPicker)`:
panics when `ws.portPicker != nil`, else stores `fn` itself. -/
def RegisterPerGroupPeerPickerWithWorkspace {σ : Type} (ws : workspace σ) (fn : PerGroupFunc σ)
    (s : σ) : Step σ Unit :=
  match ws.portPicker with
  | some _ => ⟨.panicked calledMoreThanOnce, ws, s⟩
  | none => ⟨.ok (), ⟨fn⟩, s⟩

/-- Source `getPeers(ws *workspace, groupName string) PeerPicker`: `NoPeers{}`
when `ws.portPicker == nil`; else the result of `ws.portPicker(groupName)`,
with `NoPeers{}` in place of a nil result.  A panic of the factory propagates. -/
def getPeers {σ : Type} (ws : workspace σ) (groupName : String) (s : σ) : Step σ PeerPicker :=
  match ws.portPicker with
  | none => ⟨.ok (.noPeers {}), ws, s⟩
  | some f =>
    match f groupName s with
    | (.ok .nil, s') => ⟨.ok (.noPeers {}), ws, s'⟩
    | (.ok pk, s') => ⟨.ok pk, ws, s'⟩
    | (.panicked msg, s') => ⟨.panicked msg, ws, s'⟩

/-- One registration call, of either shape, with the function value supplied. -/
inductive Registration (σ : Type) where
  | uniform (fn : UniformFunc σ)
  | perGroup (fn : PerGroupFunc σ)

/-- Perform one registration call. -/
def Registration.run {σ : Type} (r : Registration σ) (ws : workspace σ) (s : σ) : Step σ Unit :=
  match r with
  | .uniform fn => RegisterPeerPickerWithWorkspace ws fn s
  | .perGroup fn => RegisterPerGroupPeerPickerWithWorkspace ws fn s

/-- Perform a sequence of registration calls in order, each on the workspace
and world left by the previous one (a rejected call is recovered from). -/
def registerAll {σ : Type} (rs : List (Registration σ)) (ws : workspace σ) (s : σ) :
    workspace σ × σ :=
  match rs with
  | [] => (ws, s)
  | r :: rest => registerAll rest (r.run ws s).ws (r.run ws s).world

/-- The call of the supplied factory returns normally for `groupName` in world
`s`; a nil per-group function counts, since registering it installs nothing. -/
def Registration.returnsAt {σ : Type} (r : Registration σ) (groupName : String) (s : σ) : Bool :=
  match r with
  | .uniform fn => (callUniform fn s).1.isOk
  | .perGroup none => true
  | .perGroup (some body) => (body groupName s).1.isOk

/-- The spec's words for the uniform shape, "normalized to the per-group shape
by ignoring the group name argument": the per-group function that ignores its
argument and returns `fn()`. -/
def ignoreGroupName {σ : Type} (fn : UniformFunc σ) : PerGroupFunc σ :=
  some (fun _ s => callUniform fn s)

/-- An example router: every key is owned by the one peer at `url`. -/
def singlePeerRouter (url : String) : PeerPicker :=
  .impl ⟨fun _ => (some ⟨url⟩, true), [⟨url⟩]⟩

/-- An example per-group factory over a world that logs the factory calls: it
appends the group name to the log and returns a router specific to the group. -/
def loggingPerGroupFactory : PerGroupFunc (List String) :=
  some fun groupName log => (.ok (singlePeerRouter groupName), log ++ [groupName])

/-- An example uniform factory over the logging world: it appends "call" to
the log and returns one router for all groups. -/
def loggingUniformFactory : UniformFunc (List String) :=
  some fun log => (.ok (singlePeerRouter "shared"), log ++ ["call"])

/-! ## The two statements of a registration call, for calls that run together -/

/-- The value a registration call assigns to `ws.portPicker` (line 61, line 81). -/
def Registration.stored {σ : Type} (r : Registration σ) : PerGroupFunc σ :=
  match r with
  | .uniform fn => some (fun _ => callUniform fn)
  | .perGroup fn => fn

/-- Where a running registration call stands: before the check
`if ws.portPicker != nil`, past the check and before the assignment, returned,
or stopped by the panic. -/
inductive RegPc where
  | check
  | store
  | returned
  | panicked
deriving DecidableEq, Repr

/-- A registration call in progress (one goroutine). -/
structure RegThread (σ : Type) where
  call : Registration σ
  pc : RegPc

/-- One step of a registration call on the shared workspace: the check reads
the slot and panics or goes on; the assignment writes the slot.  Nothing in
`peers.go` makes the two one indivisible action. -/
def RegThread.step {σ : Type} (t : RegThread σ) (ws : workspace σ) :
    RegThread σ × workspace σ :=
  match t.pc with
  | .check =>
    match ws.portPicker with
    | some _ => (⟨t.call, .panicked⟩, ws)
    | none => (⟨t.call, .store⟩, ws)
  | .store => (⟨t.call, .returned⟩, ⟨t.call.stored⟩)
  | .returned => (t, ws)
  | .panicked => (t, ws)

/-- Let the call at position `i` take one step. -/
def stepAt {σ : Type} (i : Nat) (ts : List (RegThread σ)) (ws : workspace σ) :
    List (RegThread σ) × workspace σ :=
  match i, ts with
  | _, [] => ([], ws)
  | 0, t :: rest => ((t.step ws).1 :: rest, (t.step ws).2)
  | i + 1, t :: rest => (t :: (stepAt i rest ws).1, (stepAt i rest ws).2)

/-- Run the calls under a schedule: the list of positions that step, in order. -/
def runSchedule {σ : Type} (schedule : List Nat) (ts : List (RegThread σ)) (ws : workspace σ) :
    List (RegThread σ) × workspace σ :=
  match schedule with
  | [] => (ts, ws)
  | i :: rest => runSchedule rest (stepAt i ts ws).1 (stepAt i ts ws).2

/-- The calls `rs`, all about to perform their check. -/
def spawn {σ : Type} (rs : List (Registration σ)) : List (RegThread σ) :=
  rs.map fun r => ⟨r, .check⟩

/-- The schedule that runs `count` calls one after another, from position
`start` on: each call does its check and its assignment before the next starts. -/
def serialSchedule (start count : Nat) : List Nat :=
  match count with
  | 0 => []
  | n + 1 => start :: start :: serialSchedule (start + 1) n

/-! ## Counting factory calls -/

/-- The uniform factory `body` made to count its calls: the world gets a
counter that every call increments. -/
def countingUniform {σ : Type} (body : σ → Outcome PeerPicker × σ) : UniformFunc (σ × Nat) :=
  some fun w => ((body w.1).1, ((body w.1).2, w.2 + 1))

/-- The per-group factory `body` made to count its calls. -/
def countingPerGroup {σ : Type} (body : String → σ → Outcome PeerPicker × σ) :
    PerGroupFunc (σ × Nat) :=
  some fun groupName w => ((body groupName w.1).1, ((body groupName w.1).2, w.2 + 1))

/-! ## Workspaces behind pointers -/

/-- A value of type `*workspace`: the address of a workspace. -/
abbrev WorkspacePtr : Type := Nat

/-- The workspaces in memory, by address. -/
structure Heap (σ : Type) where
  deref : WorkspacePtr → workspace σ

/-- Write `ws` at address `p`. -/
def Heap.assign {σ : Type} (h : Heap σ) (p : WorkspacePtr) (ws : workspace σ) : Heap σ :=
  ⟨fun q => if q = p then ws else h.deref q⟩

/-- What an operation leaves behind when workspaces are reached through
pointers: its result, the memory afterwards and the world afterwards. -/
structure HeapStep (σ α : Type) where
  result : Outcome α
  heap : Heap σ
  world : σ

/-- Source `RegisterPeerPickerWithWorkspace(ws *workspace, fn func() PeerPicker)`
on the workspace that `ws` points to. -/
def Heap.RegisterPeerPickerWithWorkspace {σ : Type} (h : Heap σ) (ws : WorkspacePtr)
    (fn : UniformFunc σ) (s : σ) : HeapStep σ Unit :=
  ⟨(Groupcache.RegisterPeerPickerWithWorkspace (h.deref ws) fn s).result,
    h.assign ws (Groupcache.RegisterPeerPickerWithWorkspace (h.deref ws) fn s).ws,
    (Groupcache.RegisterPeerPickerWithWorkspace (h.deref ws) fn s).world⟩

/-- Source `RegisterPerGroupPeerPickerWithWorkspace(ws *workspace, fn func(groupName string) PeerPicker)`
on the workspace that `ws` points to. -/
def Heap.RegisterPerGroupPeerPickerWithWorkspace {σ : Type} (h : Heap σ) (ws : WorkspacePtr)
    (fn : PerGroupFunc σ) (s : σ) : HeapStep σ Unit :=
  ⟨(Groupcache.RegisterPerGroupPeerPickerWithWorkspace (h.deref ws) fn s).result,
    h.assign ws (Groupcache.RegisterPerGroupPeerPickerWithWorkspace (h.deref ws) fn s).ws,
    (Groupcache.RegisterPerGroupPeerPickerWithWorkspace (h.deref ws) fn s).world⟩

/-- Source `getPeers(ws *workspace, groupName string) PeerPicker` on the
workspace that `ws` points to. -/
def Heap.getPeers {σ : Type} (h : Heap σ) (ws : WorkspacePtr) (groupName : String) (s : σ) :
    HeapStep σ PeerPicker :=
  ⟨(Groupcache.getPeers (h.deref ws) groupName s).result,
    h.assign ws (Groupcache.getPeers (h.deref ws) groupName s).ws,
    (Groupcache.getPeers (h.deref ws) groupName s).world⟩

/-- Source `RegisterPeerPicker(fn func() PeerPicker)`:
`RegisterPeerPickerWithWorkspace(DefaultWorkspace, fn)`.  The package variable
`DefaultWorkspace` is declared outside `peers.go`; its value at the call is the
parameter `DefaultWorkspace`. -/
def Heap.RegisterPeerPicker {σ : Type} (h : Heap σ) (DefaultWorkspace : WorkspacePtr)
    (fn : UniformFunc σ) (s : σ) : HeapStep σ Unit :=
  h.RegisterPeerPickerWithWorkspace DefaultWorkspace fn s

/-- Source `RegisterPerGroupPeerPicker(fn func(groupName string) PeerPicker)`:
`RegisterPerGroupPeerPickerWithWorkspace(DefaultWorkspace, fn)`. -/
def Heap.RegisterPerGroupPeerPicker {σ : Type} (h : Heap σ) (DefaultWorkspace : WorkspacePtr)
    (fn : PerGroupFunc σ) (s : σ) : HeapStep σ Unit :=
  h.RegisterPerGroupPeerPickerWithWorkspace DefaultWorkspace fn s

/-- An example memory: the workspace at address 0 is empty, every other one
has the logging per-group factory installed. -/
def exampleHeap : Heap (List String) :=
  ⟨fun p => if p = 0 then ⟨none⟩ else ⟨loggingPerGroupFactory⟩⟩

/-! ## Evaluation lemmas -/

section Lemmas

variable {σ : Type}

theorem slot_eq_Empty_iff (ws : workspace σ) : ws.slot = .Empty ↔ ws.portPicker = none := by
  cases ws with
  | mk pp => cases pp <;> simp [workspace.slot]

theorem slot_eq_Registered_iff (ws : workspace σ) :
    ws.slot = .Registered ↔ ws.portPicker ≠ none := by
  cases ws with
  | mk pp => cases pp <;> simp [workspace.slot]

theorem getPeers_of_none (ws : workspace σ) (g : String) (s : σ) (h : ws.portPicker = none) :
    getPeers ws g s = ⟨.ok (.noPeers {}), ws, s⟩ := by
  simp [getPeers, h]

theorem getPeers_of_nil (ws : workspace σ) (f : String → σ → Outcome PeerPicker × σ)
    (g : String) (s s' : σ) (h : ws.portPicker = some f) (hf : f g s = (.ok .nil, s')) :
    getPeers ws g s = ⟨.ok (.noPeers {}), ws, s'⟩ := by
  simp [getPeers, h, hf]

theorem getPeers_of_ok (ws : workspace σ) (f : String → σ → Outcome PeerPicker × σ)
    (g : String) (s s' : σ) (pk : PeerPicker) (h : ws.portPicker = some f)
    (hf : f g s = (.ok pk, s')) (hpk : pk ≠ .nil) :
    getPeers ws g s = ⟨.ok pk, ws, s'⟩ := by
  cases pk with
  | nil => exact absurd rfl hpk
  | noPeers v => simp [getPeers, h, hf]
  | impl p => simp [getPeers, h, hf]

theorem getPeers_of_panicked (ws : workspace σ) (f : String → σ → Outcome PeerPicker × σ)
    (g : String) (s s' : σ) (msg : String) (h : ws.portPicker = some f)
    (hf : f g s = (.panicked msg, s')) :
    getPeers ws g s = ⟨.panicked msg, ws, s'⟩ := by
  simp [getPeers, h, hf]

theorem registerUniform_of_none (ws : workspace σ) (fn : UniformFunc σ) (s : σ)
    (h : ws.portPicker = none) :
    RegisterPeerPickerWithWorkspace ws fn s = ⟨.ok (), ⟨some (fun _ => callUniform fn)⟩, s⟩ := by
  simp [RegisterPeerPickerWithWorkspace, h]

theorem registerUniform_of_some (ws : workspace σ) (fn : UniformFunc σ) (s : σ)
    (h : ws.portPicker ≠ none) :
    RegisterPeerPickerWithWorkspace ws fn s = ⟨.panicked calledMoreThanOnce, ws, s⟩ := by
  cases hp : ws.portPicker with
  | none => exact absurd hp h
  | some f => simp [RegisterPeerPickerWithWorkspace, hp]

theorem registerPerGroup_of_none (ws : workspace σ) (fn : PerGroupFunc σ) (s : σ)
    (h : ws.portPicker = none) :
    RegisterPerGroupPeerPickerWithWorkspace ws fn s = ⟨.ok (), ⟨fn⟩, s⟩ := by
  simp [RegisterPerGroupPeerPickerWithWorkspace, h]

theorem registerPerGroup_of_some (ws : workspace σ) (fn : PerGroupFunc σ) (s : σ)
    (h : ws.portPicker ≠ none) :
    RegisterPerGroupPeerPickerWithWorkspace ws fn s = ⟨.panicked calledMoreThanOnce, ws, s⟩ := by
  cases hp : ws.portPicker with
  | none => exact absurd hp h
  | some f => simp [RegisterPerGroupPeerPickerWithWorkspace, hp]

theorem getPeers_ws_eq (ws : workspace σ) (g : String) (s : σ) : (getPeers ws g s).ws = ws := by
  unfold getPeers
  split
  · rfl
  · split <;> rfl

theorem getPeers_result_ne_nil (ws : workspace σ) (g : String) (s : σ) :
    (getPeers ws g s).result ≠ .ok .nil := by
  cases hp : ws.portPicker with
  | none => simp [getPeers_of_none ws g s hp]
  | some f =>
    rcases hf : f g s with ⟨res, s'⟩
    cases res with
    | panicked msg => simp [getPeers_of_panicked ws f g s s' msg hp hf]
    | ok pk =>
      cases pk with
      | nil => simp [getPeers_of_nil ws f g s s' hp hf]
      | noPeers v => simp [getPeers_of_ok ws f g s s' _ hp hf]
      | impl q => simp [getPeers_of_ok ws f g s s' _ hp hf]

theorem getPeers_panicked_iff (ws : workspace σ) (g : String) (s : σ) (msg : String) :
    (getPeers ws g s).result = .panicked msg ↔
      ∃ f, ws.portPicker = some f ∧ (f g s).1 = .panicked msg := by
  cases hp : ws.portPicker with
  | none =>
    rw [getPeers_of_none ws g s hp]
    constructor
    · intro h
      cases h
    · rintro ⟨f, hf, _⟩
      cases hf
  | some f =>
    have hex : (∃ f', some f = some f' ∧ (f' g s).1 = Outcome.panicked msg) ↔
        (f g s).1 = .panicked msg := by
      constructor
      · rintro ⟨f', hf', h⟩
        cases hf'
        exact h
      · intro h
        exact ⟨f, rfl, h⟩
    rw [hex]
    rcases hf : f g s with ⟨res, s'⟩
    cases res with
    | panicked m => simp [getPeers_of_panicked ws f g s s' m hp hf]
    | ok pk =>
      cases pk with
      | nil => simp [getPeers_of_nil ws f g s s' hp hf]
      | noPeers v => simp [getPeers_of_ok ws f g s s' _ hp hf]
      | impl q => simp [getPeers_of_ok ws f g s s' _ hp hf]

theorem getPeers_ok_of_returnsAt (ws : workspace σ) (g : String) (s : σ)
    (h : (Registration.perGroup ws.portPicker).returnsAt g s = true) :
    ∃ pk, (getPeers ws g s).result = .ok pk ∧ pk ≠ .nil := by
  cases hp : ws.portPicker with
  | none => exact ⟨.noPeers {}, by simp [getPeers_of_none ws g s hp], by simp⟩
  | some f =>
    rw [hp] at h
    rcases hf : f g s with ⟨res, s'⟩
    cases res with
    | panicked m => simp [Registration.returnsAt, hf, Outcome.isOk] at h
    | ok pk =>
      cases pk with
      | nil => exact ⟨.noPeers {}, by simp [getPeers_of_nil ws f g s s' hp hf], by simp⟩
      | noPeers v => exact ⟨.noPeers v, by simp [getPeers_of_ok ws f g s s' _ hp hf], by simp⟩
      | impl q => exact ⟨.impl q, by simp [getPeers_of_ok ws f g s s' _ hp hf], by simp⟩

theorem run_of_none (r : Registration σ) (ws : workspace σ) (s : σ) (h : ws.portPicker = none) :
    (r.run ws s).result = .ok () := by
  cases r with
  | uniform fn => simp [Registration.run, registerUniform_of_none ws fn s h]
  | perGroup fn => simp [Registration.run, registerPerGroup_of_none ws fn s h]

theorem run_of_some (r : Registration σ) (ws : workspace σ) (s : σ) (h : ws.portPicker ≠ none) :
    r.run ws s = ⟨.panicked calledMoreThanOnce, ws, s⟩ := by
  cases r with
  | uniform fn => simp [Registration.run, registerUniform_of_some ws fn s h]
  | perGroup fn => simp [Registration.run, registerPerGroup_of_some ws fn s h]

theorem run_returnsAt (r : Registration σ) (ws : workspace σ) (g : String) (s0 s : σ)
    (hws : (Registration.perGroup ws.portPicker).returnsAt g s = true)
    (hr : r.returnsAt g s = true) :
    (Registration.perGroup (r.run ws s0).ws.portPicker).returnsAt g s = true := by
  cases hp : ws.portPicker with
  | some f =>
    rw [run_of_some r ws s0 (by simp [hp])]
    exact hws
  | none =>
    cases r with
    | uniform fn =>
      simpa [Registration.run, registerUniform_of_none ws fn s0 hp, Registration.returnsAt]
        using hr
    | perGroup fn =>
      simpa [Registration.run, registerPerGroup_of_none ws fn s0 hp] using hr

theorem registerAll_returnsAt (rs : List (Registration σ)) (ws : workspace σ) (g : String)
    (s0 s : σ) (hws : (Registration.perGroup ws.portPicker).returnsAt g s = true)
    (hrs : ∀ r ∈ rs, r.returnsAt g s = true) :
    (Registration.perGroup (registerAll rs ws s0).1.portPicker).returnsAt g s = true := by
  induction rs generalizing ws s0 with
  | nil => simpa [registerAll] using hws
  | cons r rest ih =>
    simp only [registerAll]
    apply ih
    · exact run_returnsAt r ws g s0 s hws (hrs r (List.mem_cons_self r rest))
    · intro r' hr'
      exact hrs r' (List.mem_cons_of_mem r hr')

end Lemmas

/-! ## Double registration -/

section DoubleRegistration

variable {σ : Type}

/-- C1 (as stated, refuted): on the empty workspace, per-group registration of
the nil function followed by a second registration, uniform or per-group, does
not panic: the second call returns normally. -/
theorem second_registration_after_nil_accepted :
    (RegisterPeerPickerWithWorkspace
        (RegisterPerGroupPeerPickerWithWorkspace (⟨none⟩ : workspace Unit) none ()).ws
        (some fun s => (.ok (.noPeers {}), s)) ()).result = .ok () ∧
    (RegisterPerGroupPeerPickerWithWorkspace
        (RegisterPerGroupPeerPickerWithWorkspace (⟨none⟩ : workspace Unit) none ()).ws
        (some fun _ s => (.ok (.noPeers {}), s)) ()).result = .ok () ∧
    (RegisterPeerPickerWithWorkspace
        (RegisterPerGroupPeerPickerWithWorkspace (⟨none⟩ : workspace Unit) none ()).ws
        (some fun s => (.ok (.noPeers {}), s)) ()).result ≠ .panicked calledMoreThanOnce :=
  ⟨rfl, rfl, by simp [RegisterPeerPickerWithWorkspace, RegisterPerGroupPeerPickerWithWorkspace]⟩

/-- C1 (amended): on a workspace whose factory slot is empty, for all function
values `u1 u2` (uniform shape, nil allowed) and `p1 p2` (per-group shape, `p1`
not nil), in each of the four shape combinations the first registration
returns normally and the second one panics with
"RegisterPeerPicker called more than once". -/
theorem second_registration_panics (ws : workspace σ) (u1 u2 : UniformFunc σ)
    (p1 p2 : PerGroupFunc σ) (s s' : σ) (hws : ws.slot = .Empty) (hp1 : p1 ≠ none) :
    ((RegisterPeerPickerWithWorkspace ws u1 s).result = .ok () ∧
      (RegisterPeerPickerWithWorkspace (RegisterPeerPickerWithWorkspace ws u1 s).ws u2 s').result
        = .panicked calledMoreThanOnce) ∧
    ((RegisterPeerPickerWithWorkspace ws u1 s).result = .ok () ∧
      (RegisterPerGroupPeerPickerWithWorkspace (RegisterPeerPickerWithWorkspace ws u1 s).ws p2
        s').result = .panicked calledMoreThanOnce) ∧
    ((RegisterPerGroupPeerPickerWithWorkspace ws p1 s).result = .ok () ∧
      (RegisterPeerPickerWithWorkspace (RegisterPerGroupPeerPickerWithWorkspace ws p1 s).ws u2
        s').result = .panicked calledMoreThanOnce) ∧
    ((RegisterPerGroupPeerPickerWithWorkspace ws p1 s).result = .ok () ∧
      (RegisterPerGroupPeerPickerWithWorkspace (RegisterPerGroupPeerPickerWithWorkspace ws p1 s).ws
        p2 s').result = .panicked calledMoreThanOnce) := by
  have hnone : ws.portPicker = none := (slot_eq_Empty_iff ws).mp hws
  have hu : (RegisterPeerPickerWithWorkspace ws u1 s).ws.portPicker ≠ none := by
    simp [registerUniform_of_none ws u1 s hnone]
  have hp : (RegisterPerGroupPeerPickerWithWorkspace ws p1 s).ws.portPicker ≠ none := by
    simpa [registerPerGroup_of_none ws p1 s hnone] using hp1
  refine ⟨⟨?_, ?_⟩, ⟨?_, ?_⟩, ⟨?_, ?_⟩, ⟨?_, ?_⟩⟩
  · rw [registerUniform_of_none ws u1 s hnone]
  · rw [registerUniform_of_some _ u2 s' hu]
  · rw [registerUniform_of_none ws u1 s hnone]
  · rw [registerPerGroup_of_some _ p2 s' hu]
  · rw [registerPerGroup_of_none ws p1 s hnone]
  · rw [registerUniform_of_some _ u2 s' hp]
  · rw [registerPerGroup_of_none ws p1 s hnone]
  · rw [registerPerGroup_of_some _ p2 s' hp]

/-- Witness of C1 (amended): on the empty workspace, a per-group factory that
returns `NoPeers{}` is registered first; the per-group registration that
follows (here of the nil function) is rejected. -/
theorem second_registration_panics_witness :
    (⟨none⟩ : workspace Unit).slot = .Empty ∧
    (some fun _ s => (.ok (.noPeers {}), s) : PerGroupFunc Unit) ≠ none ∧
    (RegisterPerGroupPeerPickerWithWorkspace
      (RegisterPerGroupPeerPickerWithWorkspace (⟨none⟩ : workspace Unit)
        (some fun _ s => (.ok (.noPeers {}), s)) ()).ws none ()).result
      = .panicked calledMoreThanOnce :=
  ⟨rfl, by simp,
    (second_registration_panics (⟨none⟩ : workspace Unit) none none
      (some fun _ s => (.ok (.noPeers {}), s)) none () () rfl (by simp)).2.2.2.2⟩

end DoubleRegistration

/-! ## Resolution -/

section Resolution

variable {σ : Type}

/-- C2: on a workspace whose factory slot was never filled (`ws.portPicker` is
nil), `getPeers` returns `NoPeers{}` for every group name: a normal return of a
non-nil router, with workspace and world untouched. -/
theorem getPeers_unregistered (ws : workspace σ) (groupName : String) (s : σ)
    (h : ws.portPicker = none) :
    getPeers ws groupName s = ⟨.ok (.noPeers {}), ws, s⟩ ∧
    (getPeers ws groupName s).result ≠ .ok .nil := by
  rw [getPeers_of_none ws groupName s h]
  exact ⟨rfl, by simp⟩

/-- Witness of C2: the empty workspace and the group name "g1". -/
theorem getPeers_unregistered_witness :
    (⟨none⟩ : workspace Unit).portPicker = none ∧
    (getPeers (⟨none⟩ : workspace Unit) "g1" ()).result = .ok (.noPeers {}) :=
  ⟨rfl, congrArg Step.result (getPeers_unregistered (⟨none⟩ : workspace Unit) "g1" () rfl).1⟩

/-- C3: for every key, `NoPeers.PickPeer` returns `(nil, false)`, also when
called through the `PeerPicker` interface, and `NoPeers.GetAll` returns a
sequence of length 0. -/
theorem noPeers_never_finds_a_peer (v : NoPeers) (key : String) :
    v.PickPeer key = (none, false) ∧
    (PeerPicker.noPeers v).PickPeer key = .ok (none, false) ∧
    v.GetAll = [] ∧ v.GetAll.length = 0 ∧
    (PeerPicker.noPeers v).GetAll = .ok [] :=
  ⟨rfl, rfl, rfl, rfl, rfl⟩

/-- C4: when the workspace has a factory `f` installed and `f groupName`
returns a nil router, `getPeers` returns `NoPeers{}`, not nil. -/
theorem getPeers_substitutes_noPeers (ws : workspace σ)
    (f : String → σ → Outcome PeerPicker × σ) (groupName : String) (s s' : σ)
    (hws : ws.portPicker = some f) (hnil : f groupName s = (.ok .nil, s')) :
    (getPeers ws groupName s).result = .ok (.noPeers {}) ∧
    (getPeers ws groupName s).result ≠ .ok .nil := by
  rw [getPeers_of_nil ws f groupName s s' hws hnil]
  exact ⟨rfl, by simp⟩

/-- Witness of C4: a per-group factory that returns nil for every group. -/
theorem getPeers_substitutes_noPeers_witness :
    (getPeers (⟨some fun _ s => (.ok .nil, s)⟩ : workspace Unit) "g1" ()).result
      = .ok (.noPeers {}) :=
  (getPeers_substitutes_noPeers (⟨some fun _ s => (.ok .nil, s)⟩ : workspace Unit)
    (fun _ s => (.ok .nil, s)) "g1" () () rfl rfl).1

/-- C5: after per-group registration of a function value `fn` on a workspace
with an empty slot, whenever the call `fn(groupName)` returns a non-nil router
`pk` (leaving the world `s'`), `getPeers` for `groupName` returns exactly `pk`
and leaves exactly the world `s'`: it has invoked `fn` with `groupName`. -/
theorem getPeers_perGroup (ws : workspace σ) (fn : PerGroupFunc σ) (groupName : String)
    (s0 s s' : σ) (pk : PeerPicker) (hws : ws.slot = .Empty)
    (hcall : callPerGroup fn groupName s = (.ok pk, s')) (hpk : pk ≠ .nil) :
    getPeers (RegisterPerGroupPeerPickerWithWorkspace ws fn s0).ws groupName s
      = ⟨.ok pk, (RegisterPerGroupPeerPickerWithWorkspace ws fn s0).ws, s'⟩ := by
  have hnone : ws.portPicker = none := (slot_eq_Empty_iff ws).mp hws
  rw [registerPerGroup_of_none ws fn s0 hnone]
  cases fn with
  | none => simp [callPerGroup] at hcall
  | some body => exact getPeers_of_ok ⟨some body⟩ body groupName s s' pk rfl hcall hpk

/-- Witness of C5: with the logging per-group factory registered on the empty
workspace, resolving "A" and "B" calls the factory with "A" and with "B"
(as the log shows) and yields the two routers it returns, which differ. -/
theorem getPeers_perGroup_witness :
    getPeers (RegisterPerGroupPeerPickerWithWorkspace ⟨none⟩ loggingPerGroupFactory []).ws "A" []
      = ⟨.ok (singlePeerRouter "A"),
          (RegisterPerGroupPeerPickerWithWorkspace ⟨none⟩ loggingPerGroupFactory []).ws, ["A"]⟩ ∧
    getPeers (RegisterPerGroupPeerPickerWithWorkspace ⟨none⟩ loggingPerGroupFactory []).ws "B" []
      = ⟨.ok (singlePeerRouter "B"),
          (RegisterPerGroupPeerPickerWithWorkspace ⟨none⟩ loggingPerGroupFactory []).ws, ["B"]⟩ ∧
    singlePeerRouter "A" ≠ singlePeerRouter "B" :=
  ⟨getPeers_perGroup ⟨none⟩ loggingPerGroupFactory "A" [] [] ["A"] (singlePeerRouter "A") rfl rfl
      (by simp [singlePeerRouter]),
    getPeers_perGroup ⟨none⟩ loggingPerGroupFactory "B" [] [] ["B"] (singlePeerRouter "B") rfl rfl
      (by simp [singlePeerRouter]),
    by simp [singlePeerRouter]⟩

/-- C6: after uniform registration of a function value `fn` on a workspace
with an empty slot, `getPeers` does not depend on the group name; it returns
the router that `fn()` returns when that is not nil, and `NoPeers{}` when it is
nil, leaving the world as the one call `fn()` leaves it.  Uniform registration
of `fn` is per-group registration of the function that ignores the group name
and returns `fn()`. -/
theorem getPeers_uniform (ws : workspace σ) (fn : UniformFunc σ) (g1 g2 : String) (s0 s : σ)
    (hws : ws.slot = .Empty) :
    getPeers (RegisterPeerPickerWithWorkspace ws fn s0).ws g1 s
      = getPeers (RegisterPeerPickerWithWorkspace ws fn s0).ws g2 s ∧
    (∀ pk s', callUniform fn s = (.ok pk, s') → pk ≠ .nil →
      getPeers (RegisterPeerPickerWithWorkspace ws fn s0).ws g1 s
        = ⟨.ok pk, (RegisterPeerPickerWithWorkspace ws fn s0).ws, s'⟩) ∧
    (∀ s', callUniform fn s = (.ok .nil, s') →
      getPeers (RegisterPeerPickerWithWorkspace ws fn s0).ws g1 s
        = ⟨.ok (.noPeers {}), (RegisterPeerPickerWithWorkspace ws fn s0).ws, s'⟩) ∧
    RegisterPeerPickerWithWorkspace ws fn s0
      = RegisterPerGroupPeerPickerWithWorkspace ws (ignoreGroupName fn) s0 := by
  have hnone : ws.portPicker = none := (slot_eq_Empty_iff ws).mp hws
  rw [registerUniform_of_none ws fn s0 hnone]
  refine ⟨?_, ?_, ?_, ?_⟩
  · simp [getPeers]
  · intro pk s' hcall hpk
    exact getPeers_of_ok _ (fun _ => callUniform fn) g1 s s' pk rfl hcall hpk
  · intro s' hcall
    exact getPeers_of_nil _ (fun _ => callUniform fn) g1 s s' rfl hcall
  · rw [registerPerGroup_of_none ws _ s0 hnone]
    rfl

/-- Witness of C6: with the logging uniform factory registered on the empty
workspace, resolving "g1" gives what resolving "g2" gives, the router of the
factory, after one logged call. -/
theorem getPeers_uniform_witness :
    (⟨none⟩ : workspace (List String)).slot = .Empty ∧
    getPeers (RegisterPeerPickerWithWorkspace ⟨none⟩ loggingUniformFactory []).ws "g1" []
      = getPeers (RegisterPeerPickerWithWorkspace ⟨none⟩ loggingUniformFactory []).ws "g2" [] ∧
    getPeers (RegisterPeerPickerWithWorkspace ⟨none⟩ loggingUniformFactory []).ws "g1" []
      = ⟨.ok (singlePeerRouter "shared"),
          (RegisterPeerPickerWithWorkspace ⟨none⟩ loggingUniformFactory []).ws, ["call"]⟩ :=
  ⟨rfl, (getPeers_uniform ⟨none⟩ loggingUniformFactory "g1" "g2" [] [] rfl).1,
    (getPeers_uniform ⟨none⟩ loggingUniformFactory "g1" "g2" [] [] rfl).2.1
      (singlePeerRouter "shared") ["call"] rfl (by simp [singlePeerRouter])⟩

/-- C7 (as stated, refuted): after uniform registration of the nil function on
the empty workspace `getPeers` panics with the nil-call runtime error, and
after registration of a factory that panics it panics with the factory's
message. -/
theorem getPeers_panics_with_factory :
    (getPeers (registerAll [.uniform none] (⟨none⟩ : workspace Unit) ()).1 "g1" ()).result
      = .panicked nilDereference ∧
    (getPeers (registerAll [.perGroup (some fun _ s => (.panicked "no peers configured", s))]
        (⟨none⟩ : workspace Unit) ()).1 "g1" ()).result
      = .panicked "no peers configured" :=
  ⟨rfl, rfl⟩

/-- C7 (amended): in every workspace state reached from a workspace with an
empty slot by a sequence of registration calls (either shape, any function
value), for every group name `getPeers` never returns nil, and it panics only
with a panic of the call of the installed factory.  When the call of every
function value registered returns normally (a nil function registered
uniformly or a panicking factory does not), `getPeers` returns normally with a
non-nil router. -/
theorem getPeers_after_registrations (ws0 : workspace σ) (rs : List (Registration σ))
    (groupName : String) (s0 s : σ) (h0 : ws0.slot = .Empty) :
    (getPeers (registerAll rs ws0 s0).1 groupName s).result ≠ .ok .nil ∧
    (∀ msg, (getPeers (registerAll rs ws0 s0).1 groupName s).result = .panicked msg →
      ∃ f, (registerAll rs ws0 s0).1.portPicker = some f ∧
        (f groupName s).1 = .panicked msg) ∧
    ((∀ r ∈ rs, r.returnsAt groupName s = true) →
      ∃ pk, (getPeers (registerAll rs ws0 s0).1 groupName s).result = .ok pk ∧ pk ≠ .nil) := by
  refine ⟨getPeers_result_ne_nil _ groupName s, ?_, ?_⟩
  · intro msg hmsg
    exact (getPeers_panicked_iff _ groupName s msg).mp hmsg
  · intro hrs
    apply getPeers_ok_of_returnsAt
    apply registerAll_returnsAt rs ws0 groupName s0 s _ hrs
    rw [(slot_eq_Empty_iff ws0).mp h0]
    rfl

/-- Witness of C7 (amended): the logging uniform factory, then the logging
per-group factory, registered on the empty workspace; resolving "g1" returns
normally with a non-nil router. -/
theorem getPeers_after_registrations_witness :
    (⟨none⟩ : workspace (List String)).slot = .Empty ∧
    (∀ r ∈ [Registration.uniform loggingUniformFactory, .perGroup loggingPerGroupFactory],
      r.returnsAt "g1" [] = true) ∧
    ∃ pk, (getPeers (registerAll [.uniform loggingUniformFactory,
        .perGroup loggingPerGroupFactory] ⟨none⟩ []).1 "g1" []).result = .ok pk ∧ pk ≠ .nil :=
  ⟨rfl, by simp [Registration.returnsAt, loggingUniformFactory, loggingPerGroupFactory,
      callUniform, Outcome.isOk],
    (getPeers_after_registrations ⟨none⟩
      [.uniform loggingUniformFactory, .perGroup loggingPerGroupFactory] "g1" [] [] rfl).2.2
      (by simp [Registration.returnsAt, loggingUniformFactory, loggingPerGroupFactory,
        callUniform, Outcome.isOk])⟩

end Resolution

/-! ## The factory slot as a state machine -/

section SlotStateMachine

variable {σ : Type}

/-- C8 (as stated, refuted): per-group registration of the nil function on the
empty workspace returns normally but leaves the slot Empty, and a further
registration is then accepted instead of rejected. -/
theorem nil_perGroup_registration_leaves_Empty :
    (RegisterPerGroupPeerPickerWithWorkspace (⟨none⟩ : workspace Unit) none ()).result = .ok () ∧
    (RegisterPerGroupPeerPickerWithWorkspace (⟨none⟩ : workspace Unit) none ()).ws.slot
      = .Empty ∧
    (RegisterPerGroupPeerPickerWithWorkspace (⟨none⟩ : workspace Unit) none ()).ws.slot
      ≠ .Registered ∧
    (RegisterPerGroupPeerPickerWithWorkspace
      (RegisterPerGroupPeerPickerWithWorkspace (⟨none⟩ : workspace Unit) none ()).ws
      (some fun _ s => (.ok .nil, s)) ()).result = .ok () :=
  ⟨rfl, rfl, by decide, rfl⟩

/-- C8 (amended): on a workspace whose slot is Empty every registration call
returns normally; a uniform registration (any function value) and a per-group
registration of a non-nil function leave the slot Registered, and any further
registration `r` is then rejected with the double-registration panic.  On a
workspace whose slot is Registered, registration of either shape and
`getPeers` leave the slot Registered. -/
theorem slot_one_way (ws : workspace σ) (u : UniformFunc σ) (p : PerGroupFunc σ)
    (r : Registration σ) (groupName : String) (s s' : σ) :
    (ws.slot = .Empty →
      ((RegisterPeerPickerWithWorkspace ws u s).result = .ok () ∧
        (RegisterPeerPickerWithWorkspace ws u s).ws.slot = .Registered ∧
        (r.run (RegisterPeerPickerWithWorkspace ws u s).ws s').result
          = .panicked calledMoreThanOnce) ∧
      ((RegisterPerGroupPeerPickerWithWorkspace ws p s).result = .ok () ∧
        (p ≠ none →
          (RegisterPerGroupPeerPickerWithWorkspace ws p s).ws.slot = .Registered ∧
          (r.run (RegisterPerGroupPeerPickerWithWorkspace ws p s).ws s').result
            = .panicked calledMoreThanOnce))) ∧
    (ws.slot = .Registered →
      (RegisterPeerPickerWithWorkspace ws u s).ws.slot = .Registered ∧
      (RegisterPerGroupPeerPickerWithWorkspace ws p s).ws.slot = .Registered ∧
      (getPeers ws groupName s).ws.slot = .Registered) := by
  constructor
  · intro hws
    have hnone : ws.portPicker = none := (slot_eq_Empty_iff ws).mp hws
    rw [registerUniform_of_none ws u s hnone, registerPerGroup_of_none ws p s hnone]
    refine ⟨⟨rfl, rfl, ?_⟩, rfl, ?_⟩
    · rw [run_of_some r _ s' (by simp)]
    · intro hp
      constructor
      · exact (slot_eq_Registered_iff _).mpr hp
      · rw [run_of_some r _ s' hp]
  · intro hws
    have hsome : ws.portPicker ≠ none := (slot_eq_Registered_iff ws).mp hws
    rw [registerUniform_of_some ws u s hsome, registerPerGroup_of_some ws p s hsome,
      getPeers_ws_eq]
    exact ⟨hws, hws, hws⟩

/-- Witness of C8 (amended): from the empty workspace, registration of the
logging per-group factory leaves the slot Registered and a second registration
is rejected; `getPeers` on the registered workspace keeps it Registered. -/
theorem slot_one_way_witness :
    ((RegisterPerGroupPeerPickerWithWorkspace ⟨none⟩ loggingPerGroupFactory []).ws.slot
        = .Registered ∧
      ((Registration.uniform loggingUniformFactory).run
        (RegisterPerGroupPeerPickerWithWorkspace ⟨none⟩ loggingPerGroupFactory []).ws []).result
        = .panicked calledMoreThanOnce) ∧
    (getPeers (⟨loggingPerGroupFactory⟩ : workspace (List String)) "g1" []).ws.slot
      = .Registered :=
  ⟨((slot_one_way ⟨none⟩ loggingUniformFactory loggingPerGroupFactory
      (.uniform loggingUniformFactory) "g1" [] []).1 rfl).2.2
      (by simp [loggingPerGroupFactory]),
    ((slot_one_way ⟨loggingPerGroupFactory⟩ loggingUniformFactory loggingPerGroupFactory
      (.uniform loggingUniformFactory) "g1" [] []).2 rfl).2.2⟩

/-- C9: on a workspace that already has a factory installed, a registration
call of either shape panics with the double-registration message and leaves
workspace and world as they were, so `getPeers` afterwards returns, for every
group name, what it returned before. -/
theorem rejected_registration_atomic (ws : workspace σ) (u : UniformFunc σ)
    (p : PerGroupFunc σ) (groupName : String) (s s' : σ) (hws : ws.slot = .Registered) :
    ((RegisterPeerPickerWithWorkspace ws u s).result = .panicked calledMoreThanOnce ∧
      (RegisterPeerPickerWithWorkspace ws u s).ws = ws ∧
      (RegisterPeerPickerWithWorkspace ws u s).world = s ∧
      getPeers (RegisterPeerPickerWithWorkspace ws u s).ws groupName s'
        = getPeers ws groupName s') ∧
    ((RegisterPerGroupPeerPickerWithWorkspace ws p s).result = .panicked calledMoreThanOnce ∧
      (RegisterPerGroupPeerPickerWithWorkspace ws p s).ws = ws ∧
      (RegisterPerGroupPeerPickerWithWorkspace ws p s).world = s ∧
      getPeers (RegisterPerGroupPeerPickerWithWorkspace ws p s).ws groupName s'
        = getPeers ws groupName s') := by
  have hsome : ws.portPicker ≠ none := (slot_eq_Registered_iff ws).mp hws
  rw [registerUniform_of_some ws u s hsome, registerPerGroup_of_some ws p s hsome]
  exact ⟨⟨rfl, rfl, rfl, rfl⟩, rfl, rfl, rfl, rfl⟩

/-- Witness of C9: the logging per-group factory is installed; a uniform
registration is rejected and resolving "A" still yields the router of the
first factory. -/
theorem rejected_registration_atomic_witness :
    (⟨loggingPerGroupFactory⟩ : workspace (List String)).slot = .Registered ∧
    (RegisterPeerPickerWithWorkspace ⟨loggingPerGroupFactory⟩ loggingUniformFactory []).result
      = .panicked calledMoreThanOnce ∧
    (getPeers (RegisterPeerPickerWithWorkspace ⟨loggingPerGroupFactory⟩ loggingUniformFactory
      []).ws "A" []).result = .ok (singlePeerRouter "A") :=
  ⟨rfl,
    (rejected_registration_atomic ⟨loggingPerGroupFactory⟩ loggingUniformFactory none "A" [] []
      rfl).1.1,
    (congrArg Step.result (rejected_registration_atomic ⟨loggingPerGroupFactory⟩
      loggingUniformFactory none "A" [] [] rfl).1.2.2.2).trans rfl⟩

/-- C10: `getPeers` leaves the workspace as it was, and its result and effect
are determined by the factory in the slot and the group name (and the world
the factory runs in).  On a workspace whose slot is Empty the slot is still
Empty afterwards, and a subsequent registration of either shape returns
normally. -/
theorem getPeers_frame (ws : workspace σ) (groupName : String) (s : σ) :
    (getPeers ws groupName s).ws = ws ∧
    (∀ ws' : workspace σ, ws'.portPicker = ws.portPicker →
      (getPeers ws' groupName s).result = (getPeers ws groupName s).result ∧
      (getPeers ws' groupName s).world = (getPeers ws groupName s).world) ∧
    (ws.slot = .Empty →
      (getPeers ws groupName s).ws.slot = .Empty ∧
      ∀ (u : UniformFunc σ) (p : PerGroupFunc σ) (s' : σ),
        (RegisterPeerPickerWithWorkspace (getPeers ws groupName s).ws u s').result = .ok () ∧
        (RegisterPerGroupPeerPickerWithWorkspace (getPeers ws groupName s).ws p s').result
          = .ok ()) := by
  refine ⟨getPeers_ws_eq ws groupName s, ?_, ?_⟩
  · intro ws' h
    have hws' : ws' = ws := by
      cases ws'
      cases ws
      simpa using h
    rw [hws']
    exact ⟨rfl, rfl⟩
  · intro hws
    have hnone : ws.portPicker = none := (slot_eq_Empty_iff ws).mp hws
    rw [getPeers_ws_eq]
    refine ⟨hws, ?_⟩
    intro u p s'
    rw [registerUniform_of_none ws u s' hnone, registerPerGroup_of_none ws p s' hnone]
    exact ⟨rfl, rfl⟩

/-- Witness of C10: resolving "g1" on the empty workspace leaves the slot
Empty, and the logging uniform factory can still be registered. -/
theorem getPeers_frame_witness :
    (getPeers (⟨none⟩ : workspace (List String)) "g1" []).ws.slot = .Empty ∧
    (RegisterPeerPickerWithWorkspace (getPeers (⟨none⟩ : workspace (List String)) "g1" []).ws
      loggingUniformFactory []).result = .ok () :=
  ⟨((getPeers_frame (⟨none⟩ : workspace (List String)) "g1" []).2.2 rfl).1,
    (((getPeers_frame (⟨none⟩ : workspace (List String)) "g1" []).2.2 rfl).2
      loggingUniformFactory none []).1⟩

end SlotStateMachine

/-! ## Registration calls that run together -/

section RunningTogether

variable {σ : Type}

theorem step_check_of_some (t : RegThread σ) (ws : workspace σ) (hws : ws.portPicker ≠ none)
    (hpc : t.pc = .check) : t.step ws = (⟨t.call, .panicked⟩, ws) := by
  cases hp : ws.portPicker with
  | none => exact absurd hp hws
  | some f => simp [RegThread.step, hpc, hp]

theorem step_check_of_none (t : RegThread σ) (ws : workspace σ) (hws : ws.portPicker = none)
    (hpc : t.pc = .check) : t.step ws = (⟨t.call, .store⟩, ws) := by
  simp [RegThread.step, hpc, hws]

theorem stepAt_append (done todo : List (RegThread σ)) (t : RegThread σ) (ws : workspace σ) :
    stepAt done.length (done ++ t :: todo) ws
      = (done ++ (t.step ws).1 :: todo, (t.step ws).2) := by
  induction done with
  | nil => simp [stepAt]
  | cons d rest ih => simp [stepAt, ih]

theorem two_steps_eq_run (r : Registration σ) (ws : workspace σ) (s : σ) :
    (((⟨r, .check⟩ : RegThread σ).step ws).1.step ((⟨r, .check⟩ : RegThread σ).step ws).2).2
      = (r.run ws s).ws ∧
    ((((⟨r, .check⟩ : RegThread σ).step ws).1.step ((⟨r, .check⟩ : RegThread σ).step ws).2).1.pc
      = .returned ↔ (r.run ws s).result = .ok ()) ∧
    ((((⟨r, .check⟩ : RegThread σ).step ws).1.step ((⟨r, .check⟩ : RegThread σ).step ws).2).1.pc
      = .panicked ↔ (r.run ws s).result = .panicked calledMoreThanOnce) := by
  cases hp : ws.portPicker with
  | none =>
    rw [step_check_of_none _ ws hp rfl]
    cases r with
    | uniform fn =>
      simp [RegThread.step, Registration.run, registerUniform_of_none ws fn s hp,
        Registration.stored]
    | perGroup fn =>
      simp [RegThread.step, Registration.run, registerPerGroup_of_none ws fn s hp,
        Registration.stored]
  | some f =>
    have hne : ws.portPicker ≠ none := by simp [hp]
    rw [step_check_of_some _ ws hne rfl, run_of_some r ws s hne]
    simp [RegThread.step]

theorem runSchedule_serial_of_some (todo : List (Registration σ)) (done : List (RegThread σ))
    (ws : workspace σ) (hws : ws.portPicker ≠ none) :
    runSchedule (serialSchedule done.length todo.length) (done ++ spawn todo) ws
      = (done ++ todo.map (fun r => ⟨r, .panicked⟩), ws) := by
  induction todo generalizing done with
  | nil => simp [serialSchedule, runSchedule, spawn]
  | cons r rest ih =>
    have h1 : stepAt done.length (done ++ (⟨r, .check⟩ : RegThread σ) :: spawn rest) ws
        = (done ++ (⟨r, .panicked⟩ : RegThread σ) :: spawn rest, ws) := by
      rw [stepAt_append, step_check_of_some _ ws hws rfl]
    have h2 : stepAt done.length (done ++ (⟨r, .panicked⟩ : RegThread σ) :: spawn rest) ws
        = (done ++ (⟨r, .panicked⟩ : RegThread σ) :: spawn rest, ws) := by
      rw [stepAt_append]
      rfl
    have h3 := ih (done ++ [⟨r, .panicked⟩])
    simp only [List.length_append, List.length_singleton, List.append_assoc,
      List.singleton_append] at h3
    simp only [List.length_cons, serialSchedule, runSchedule]
    have hspawn : spawn (r :: rest) = (⟨r, .check⟩ : RegThread σ) :: spawn rest := rfl
    rw [hspawn, h1]
    simp only []
    rw [h2]
    simp only [List.map_cons]
    exact h3

/-- C11 (as stated, refuted): two registration calls on the empty workspace
whose steps interleave (both checks before both assignments) both return
normally, neither panics, and the slot holds what the last assignment wrote:
the per-group factory under the schedule 0,1,0,1 and the uniform one under
0,1,1,0. -/
theorem interleaved_registrations_both_succeed :
    ((runSchedule [0, 1, 0, 1]
        (spawn [.uniform loggingUniformFactory, .perGroup loggingPerGroupFactory])
        ⟨none⟩).1.map fun t => t.pc) = [.returned, .returned] ∧
    (runSchedule [0, 1, 0, 1]
        (spawn [.uniform loggingUniformFactory, .perGroup loggingPerGroupFactory])
        ⟨none⟩).2.portPicker = loggingPerGroupFactory ∧
    ((runSchedule [0, 1, 1, 0]
        (spawn [.uniform loggingUniformFactory, .perGroup loggingPerGroupFactory])
        ⟨none⟩).1.map fun t => t.pc) = [.returned, .returned] ∧
    (runSchedule [0, 1, 1, 0]
        (spawn [.uniform loggingUniformFactory, .perGroup loggingPerGroupFactory])
        ⟨none⟩).2.portPicker = (Registration.uniform loggingUniformFactory).stored :=
  ⟨rfl, rfl, rfl, rfl⟩

/-- C11 (amended): a registration call is a check of the slot followed by a
separate assignment (the two steps together are the call of the source
function).  A call whose check finds the slot populated panics and leaves the
workspace unchanged.  When the calls `r :: rest` run one after another on a
workspace with an Empty slot, and `r` is uniform or stores a non-nil per-group
function, `r` returns and establishes the factory and every other call
panics. -/
theorem registrations_one_after_another (r : Registration σ) (rest : List (Registration σ))
    (ws : workspace σ) (hws : ws.slot = .Empty) (hr : r.stored ≠ none) :
    runSchedule (serialSchedule 0 (rest.length + 1)) (spawn (r :: rest)) ws
      = (⟨r, .returned⟩ :: rest.map (fun r' => ⟨r', .panicked⟩), ⟨r.stored⟩) ∧
    (∀ (t : RegThread σ) (ws' : workspace σ), ws'.portPicker ≠ none → t.pc = .check →
      t.step ws' = (⟨t.call, .panicked⟩, ws')) ∧
    (∀ (r' : Registration σ) (ws' : workspace σ) (s : σ),
      (((⟨r', .check⟩ : RegThread σ).step ws').1.step
        ((⟨r', .check⟩ : RegThread σ).step ws').2).2 = (r'.run ws' s).ws ∧
      ((((⟨r', .check⟩ : RegThread σ).step ws').1.step
        ((⟨r', .check⟩ : RegThread σ).step ws').2).1.pc = .returned ↔
          (r'.run ws' s).result = .ok ()) ∧
      ((((⟨r', .check⟩ : RegThread σ).step ws').1.step
        ((⟨r', .check⟩ : RegThread σ).step ws').2).1.pc = .panicked ↔
          (r'.run ws' s).result = .panicked calledMoreThanOnce)) := by
  refine ⟨?_, step_check_of_some, two_steps_eq_run⟩
  have hnone : ws.portPicker = none := (slot_eq_Empty_iff ws).mp hws
  have h1 : stepAt 0 (spawn (r :: rest)) ws
      = ((⟨r, .store⟩ : RegThread σ) :: spawn rest, ws) := by
    simp [spawn, stepAt, step_check_of_none _ ws hnone]
  have h2 : stepAt 0 ((⟨r, .store⟩ : RegThread σ) :: spawn rest) ws
      = ((⟨r, .returned⟩ : RegThread σ) :: spawn rest, ⟨r.stored⟩) := by
    simp [stepAt, RegThread.step]
  have h3 := runSchedule_serial_of_some rest [(⟨r, .returned⟩ : RegThread σ)] ⟨r.stored⟩ hr
  simp only [serialSchedule, runSchedule]
  rw [h1]
  simp only []
  rw [h2]
  simpa using h3

/-- Witness of C11 (amended): the logging uniform factory, then the logging
per-group factory and the nil function, registered one after another on the
empty workspace: the first call returns, the two others panic. -/
theorem registrations_one_after_another_witness :
    (⟨none⟩ : workspace (List String)).slot = .Empty ∧
    (Registration.uniform loggingUniformFactory).stored ≠ none ∧
    ((runSchedule (serialSchedule 0 3)
        (spawn [.uniform loggingUniformFactory, .perGroup loggingPerGroupFactory,
          .perGroup none]) ⟨none⟩).1.map fun t => t.pc)
      = [.returned, .panicked, .panicked] :=
  ⟨rfl, by simp [Registration.stored],
    congrArg (fun x => x.1.map fun t => t.pc)
      (registrations_one_after_another (.uniform loggingUniformFactory)
        [.perGroup loggingPerGroupFactory, .perGroup none] ⟨none⟩ rfl
        (by simp [Registration.stored])).1⟩

end RunningTogether

/-! ## How often the factory is called -/

section FactoryCalls

variable {σ : Type}

theorem getPeers_world_of_some (ws : workspace σ) (f : String → σ → Outcome PeerPicker × σ)
    (g : String) (s : σ) (h : ws.portPicker = some f) :
    (getPeers ws g s).world = (f g s).2 := by
  rcases hf : f g s with ⟨res, s'⟩
  cases res with
  | panicked m => simp [getPeers_of_panicked ws f g s s' m h hf]
  | ok pk =>
    cases pk with
    | nil => simp [getPeers_of_nil ws f g s s' h hf]
    | noPeers v => simp [getPeers_of_ok ws f g s s' _ h hf]
    | impl q => simp [getPeers_of_ok ws f g s s' _ h hf]

/-- C12: a registration call of either shape leaves the world as it was, so it
calls no factory (a counting factory keeps its count).  `getPeers` on a
workspace whose slot is Empty leaves the world as it was; on a workspace with
the factory `f` installed it leaves the world that the single call
`f groupName` leaves.  With a counting factory registered on an empty
workspace, uniform or per-group, each `getPeers` call raises the count by
exactly one, whatever the group name. -/
theorem factory_called_once_per_resolution (ws : workspace σ) (wc : workspace (σ × Nat))
    (u : UniformFunc σ) (p : PerGroupFunc σ) (f : String → σ → Outcome PeerPicker × σ)
    (ub : σ → Outcome PeerPicker × σ) (pb : String → σ → Outcome PeerPicker × σ)
    (groupName : String) (s s0 : σ) (n n0 : Nat) :
    ((RegisterPeerPickerWithWorkspace ws u s).world = s ∧
      (RegisterPerGroupPeerPickerWithWorkspace ws p s).world = s) ∧
    ((RegisterPeerPickerWithWorkspace wc (countingUniform ub) (s, n)).world = (s, n) ∧
      (RegisterPerGroupPeerPickerWithWorkspace wc (countingPerGroup pb) (s, n)).world
        = (s, n)) ∧
    (ws.slot = .Empty → (getPeers ws groupName s).world = s) ∧
    (ws.portPicker = some f → (getPeers ws groupName s).world = (f groupName s).2) ∧
    (wc.slot = .Empty →
      (getPeers (RegisterPeerPickerWithWorkspace wc (countingUniform ub) (s0, n0)).ws
        groupName (s, n)).world = ((ub s).2, n + 1) ∧
      (getPeers (RegisterPerGroupPeerPickerWithWorkspace wc (countingPerGroup pb) (s0, n0)).ws
        groupName (s, n)).world = ((pb groupName s).2, n + 1)) := by
  have hreg : ∀ {τ : Type} (w : workspace τ) (a : UniformFunc τ) (b : PerGroupFunc τ) (x : τ),
      (RegisterPeerPickerWithWorkspace w a x).world = x ∧
      (RegisterPerGroupPeerPickerWithWorkspace w b x).world = x := by
    intro τ w a b x
    cases hp : w.portPicker with
    | none => simp [registerUniform_of_none w a x hp, registerPerGroup_of_none w b x hp]
    | some f' =>
      have hne : w.portPicker ≠ none := by simp [hp]
      simp [registerUniform_of_some w a x hne, registerPerGroup_of_some w b x hne]
  refine ⟨hreg ws u p s, hreg wc _ _ (s, n), ?_, ?_, ?_⟩
  · intro hws
    rw [getPeers_of_none ws groupName s ((slot_eq_Empty_iff ws).mp hws)]
  · intro hf
    exact getPeers_world_of_some ws f groupName s hf
  · intro hwc
    have hnone : wc.portPicker = none := (slot_eq_Empty_iff wc).mp hwc
    rw [registerUniform_of_none wc _ (s0, n0) hnone, registerPerGroup_of_none wc _ (s0, n0) hnone]
    constructor
    · rw [getPeers_world_of_some _ (fun _ => callUniform (countingUniform ub)) groupName (s, n) rfl]
      rfl
    · exact getPeers_world_of_some ⟨countingPerGroup pb⟩
        (fun g w => ((pb g w.1).1, ((pb g w.1).2, w.2 + 1))) groupName (s, n) rfl

/-- Witness of C12: the logging factories with a call counter, registered on
the empty workspace: a `getPeers` call for "g1" takes the count from 0 to 1
and logs the one call. -/
theorem factory_called_once_per_resolution_witness :
    (⟨none⟩ : workspace (List String × Nat)).slot = .Empty ∧
    (getPeers (RegisterPeerPickerWithWorkspace ⟨none⟩
        (countingUniform fun log => (.ok (singlePeerRouter "shared"), log ++ ["call"]))
        ([], 0)).ws "g1" ([], 0)).world = (["call"], 1) ∧
    (getPeers (RegisterPerGroupPeerPickerWithWorkspace ⟨none⟩
        (countingPerGroup fun g log => (.ok (singlePeerRouter g), log ++ [g]))
        ([], 0)).ws "g1" ([], 0)).world = (["g1"], 1) :=
  ⟨rfl,
    ((factory_called_once_per_resolution (⟨none⟩ : workspace (List String)) ⟨none⟩ none none
      (fun _ log => (.ok .nil, log))
      (fun log => (.ok (singlePeerRouter "shared"), log ++ ["call"]))
      (fun g log => (.ok (singlePeerRouter g), log ++ [g])) "g1" [] [] 0 0).2.2.2.2 rfl).1,
    ((factory_called_once_per_resolution (⟨none⟩ : workspace (List String)) ⟨none⟩ none none
      (fun _ log => (.ok .nil, log))
      (fun log => (.ok (singlePeerRouter "shared"), log ++ ["call"]))
      (fun g log => (.ok (singlePeerRouter g), log ++ [g])) "g1" [] [] 0 0).2.2.2.2 rfl).2⟩

end FactoryCalls

/-! ## The default workspace and isolation of workspaces -/

section Workspaces

variable {σ : Type}

theorem assign_deref_same (h : Heap σ) (p : WorkspacePtr) (ws : workspace σ) :
    (h.assign p ws).deref p = ws := by
  simp [Heap.assign]

theorem assign_deref_ne (h : Heap σ) (p q : WorkspacePtr) (ws : workspace σ) (hne : q ≠ p) :
    (h.assign p ws).deref q = h.deref q := by
  simp [Heap.assign, hne]

theorem register_result_ok_iff (ws : workspace σ) (u : UniformFunc σ) (p : PerGroupFunc σ)
    (s : σ) :
    ((RegisterPeerPickerWithWorkspace ws u s).result = .ok () ↔ ws.slot = .Empty) ∧
    ((RegisterPerGroupPeerPickerWithWorkspace ws p s).result = .ok () ↔ ws.slot = .Empty) := by
  cases hp : ws.portPicker with
  | none =>
    have hs : ws.slot = .Empty := (slot_eq_Empty_iff ws).mpr hp
    simp [registerUniform_of_none ws u s hp, registerPerGroup_of_none ws p s hp, hs]
  | some f =>
    have hne : ws.portPicker ≠ none := by simp [hp]
    have hs : ws.slot = .Registered := (slot_eq_Registered_iff ws).mpr hne
    simp [registerUniform_of_some ws u s hne, registerPerGroup_of_some ws p s hne, hs]

theorem heap_register_of_some (h : Heap σ) (w : WorkspacePtr) (u : UniformFunc σ)
    (p : PerGroupFunc σ) (s : σ) (hw : (h.deref w).portPicker ≠ none) :
    (h.RegisterPeerPickerWithWorkspace w u s).result = .panicked calledMoreThanOnce ∧
    (h.RegisterPerGroupPeerPickerWithWorkspace w p s).result = .panicked calledMoreThanOnce := by
  simp [Heap.RegisterPeerPickerWithWorkspace, Heap.RegisterPerGroupPeerPickerWithWorkspace,
    registerUniform_of_some _ u s hw, registerPerGroup_of_some _ p s hw]

theorem heap_registerUniform_installs (h : Heap σ) (w : WorkspacePtr) (u : UniformFunc σ)
    (s : σ) (hw : (h.deref w).portPicker = none) :
    ((h.RegisterPeerPickerWithWorkspace w u s).heap.deref w).portPicker ≠ none := by
  simp [Heap.RegisterPeerPickerWithWorkspace, assign_deref_same,
    registerUniform_of_none _ u s hw]

theorem heap_registerPerGroup_installs (h : Heap σ) (w : WorkspacePtr) (p : PerGroupFunc σ)
    (s : σ) (hw : (h.deref w).portPicker = none) (hp : p ≠ none) :
    ((h.RegisterPerGroupPeerPickerWithWorkspace w p s).heap.deref w).portPicker ≠ none := by
  simpa [Heap.RegisterPerGroupPeerPickerWithWorkspace, assign_deref_same,
    registerPerGroup_of_none _ p s hw] using hp

theorem heap_frame (h h' : Heap σ) (w : WorkspacePtr) (u : UniformFunc σ) (p : PerGroupFunc σ)
    (g : String) (s : σ) (heq : h'.deref w = h.deref w) :
    (h'.getPeers w g s).result = (h.getPeers w g s).result ∧
    (h'.getPeers w g s).world = (h.getPeers w g s).world ∧
    (h'.RegisterPeerPickerWithWorkspace w u s).result
      = (h.RegisterPeerPickerWithWorkspace w u s).result ∧
    (h'.RegisterPerGroupPeerPickerWithWorkspace w p s).result
      = (h.RegisterPerGroupPeerPickerWithWorkspace w p s).result := by
  simp [Heap.getPeers, Heap.RegisterPeerPickerWithWorkspace,
    Heap.RegisterPerGroupPeerPickerWithWorkspace, heq]

/-- C13: `RegisterPeerPicker(fn)` is `RegisterPeerPickerWithWorkspace(DefaultWorkspace, fn)`
and `RegisterPerGroupPeerPicker(fn)` is
`RegisterPerGroupPeerPickerWithWorkspace(DefaultWorkspace, fn)`: same result,
same memory, same world.  The once-only rule is shared: when the default
workspace's slot is Empty, after a uniform registration through the wrapper
the explicit forms are rejected, after one through the explicit form the
wrappers are rejected, and likewise after a per-group registration of a non-nil
function. -/
theorem wrappers_use_DefaultWorkspace (h : Heap σ) (DefaultWorkspace : WorkspacePtr)
    (u u2 : UniformFunc σ) (p p2 : PerGroupFunc σ) (s s' : σ) :
    h.RegisterPeerPicker DefaultWorkspace u s
      = h.RegisterPeerPickerWithWorkspace DefaultWorkspace u s ∧
    h.RegisterPerGroupPeerPicker DefaultWorkspace p s
      = h.RegisterPerGroupPeerPickerWithWorkspace DefaultWorkspace p s ∧
    ((h.deref DefaultWorkspace).slot = .Empty →
      (((h.RegisterPeerPicker DefaultWorkspace u s).heap.RegisterPeerPickerWithWorkspace
          DefaultWorkspace u2 s').result = .panicked calledMoreThanOnce ∧
        ((h.RegisterPeerPicker DefaultWorkspace u s).heap.RegisterPerGroupPeerPickerWithWorkspace
          DefaultWorkspace p2 s').result = .panicked calledMoreThanOnce ∧
        ((h.RegisterPeerPickerWithWorkspace DefaultWorkspace u s).heap.RegisterPeerPicker
          DefaultWorkspace u2 s').result = .panicked calledMoreThanOnce ∧
        ((h.RegisterPeerPickerWithWorkspace DefaultWorkspace u s).heap.RegisterPerGroupPeerPicker
          DefaultWorkspace p2 s').result = .panicked calledMoreThanOnce) ∧
      (p ≠ none →
        ((h.RegisterPerGroupPeerPicker DefaultWorkspace p s).heap.RegisterPeerPickerWithWorkspace
          DefaultWorkspace u2 s').result = .panicked calledMoreThanOnce ∧
        ((h.RegisterPerGroupPeerPicker DefaultWorkspace p
          s).heap.RegisterPerGroupPeerPickerWithWorkspace
          DefaultWorkspace p2 s').result = .panicked calledMoreThanOnce ∧
        ((h.RegisterPerGroupPeerPickerWithWorkspace DefaultWorkspace p s).heap.RegisterPeerPicker
          DefaultWorkspace u2 s').result = .panicked calledMoreThanOnce ∧
        ((h.RegisterPerGroupPeerPickerWithWorkspace DefaultWorkspace p
          s).heap.RegisterPerGroupPeerPicker
          DefaultWorkspace p2 s').result = .panicked calledMoreThanOnce)) := by
  refine ⟨rfl, rfl, ?_⟩
  intro hD
  have hnone : (h.deref DefaultWorkspace).portPicker = none := (slot_eq_Empty_iff _).mp hD
  have hu := heap_registerUniform_installs h DefaultWorkspace u s hnone
  constructor
  · exact ⟨(heap_register_of_some _ DefaultWorkspace u2 p2 s' hu).1,
      (heap_register_of_some _ DefaultWorkspace u2 p2 s' hu).2,
      (heap_register_of_some _ DefaultWorkspace u2 p2 s' hu).1,
      (heap_register_of_some _ DefaultWorkspace u2 p2 s' hu).2⟩
  · intro hp
    have hpg := heap_registerPerGroup_installs h DefaultWorkspace p s hnone hp
    exact ⟨(heap_register_of_some _ DefaultWorkspace u2 p2 s' hpg).1,
      (heap_register_of_some _ DefaultWorkspace u2 p2 s' hpg).2,
      (heap_register_of_some _ DefaultWorkspace u2 p2 s' hpg).1,
      (heap_register_of_some _ DefaultWorkspace u2 p2 s' hpg).2⟩

/-- Witness of C13: in the example memory the default workspace is the empty
one at address 0; after `RegisterPeerPicker` the explicit per-group
registration on it is rejected. -/
theorem wrappers_use_DefaultWorkspace_witness :
    (exampleHeap.deref 0).slot = .Empty ∧
    ((exampleHeap.RegisterPeerPicker 0 loggingUniformFactory
      []).heap.RegisterPerGroupPeerPickerWithWorkspace 0 loggingPerGroupFactory []).result
      = .panicked calledMoreThanOnce :=
  ⟨rfl,
    ((wrappers_use_DefaultWorkspace exampleHeap 0 loggingUniformFactory loggingUniformFactory
      loggingPerGroupFactory loggingPerGroupFactory [] []).2.2 rfl).1.2.1⟩

/-- C14: for two distinct workspaces `w1` and `w2`, a registration call of
either shape on `w1`, accepted or rejected, leaves the workspace `w2` as it
was; `getPeers` on `w2` gives the same result and world effect for every group
name before and after, and a registration on `w2` has the same result before
and after: it is accepted exactly when the slot of `w2` is Empty. -/
theorem workspaces_isolated (h : Heap σ) (w1 w2 : WorkspacePtr) (u u2 : UniformFunc σ)
    (p p2 : PerGroupFunc σ) (groupName : String) (s s' : σ) (hne : w1 ≠ w2) :
    ((h.RegisterPeerPickerWithWorkspace w1 u s).heap.deref w2 = h.deref w2 ∧
      ((h.RegisterPeerPickerWithWorkspace w1 u s).heap.getPeers w2 groupName s').result
        = (h.getPeers w2 groupName s').result ∧
      ((h.RegisterPeerPickerWithWorkspace w1 u s).heap.getPeers w2 groupName s').world
        = (h.getPeers w2 groupName s').world ∧
      ((h.RegisterPeerPickerWithWorkspace w1 u s).heap.RegisterPeerPickerWithWorkspace w2 u2
        s').result = (h.RegisterPeerPickerWithWorkspace w2 u2 s').result ∧
      ((h.RegisterPeerPickerWithWorkspace w1 u s).heap.RegisterPerGroupPeerPickerWithWorkspace w2
        p2 s').result = (h.RegisterPerGroupPeerPickerWithWorkspace w2 p2 s').result) ∧
    ((h.RegisterPerGroupPeerPickerWithWorkspace w1 p s).heap.deref w2 = h.deref w2 ∧
      ((h.RegisterPerGroupPeerPickerWithWorkspace w1 p s).heap.getPeers w2 groupName s').result
        = (h.getPeers w2 groupName s').result ∧
      ((h.RegisterPerGroupPeerPickerWithWorkspace w1 p s).heap.getPeers w2 groupName s').world
        = (h.getPeers w2 groupName s').world ∧
      ((h.RegisterPerGroupPeerPickerWithWorkspace w1 p s).heap.RegisterPeerPickerWithWorkspace w2
        u2 s').result = (h.RegisterPeerPickerWithWorkspace w2 u2 s').result ∧
      ((h.RegisterPerGroupPeerPickerWithWorkspace w1 p
        s).heap.RegisterPerGroupPeerPickerWithWorkspace w2 p2 s').result
        = (h.RegisterPerGroupPeerPickerWithWorkspace w2 p2 s').result) ∧
    (((h.RegisterPeerPickerWithWorkspace w2 u2 s').result = .ok () ↔
        (h.deref w2).slot = .Empty) ∧
      ((h.RegisterPerGroupPeerPickerWithWorkspace w2 p2 s').result = .ok () ↔
        (h.deref w2).slot = .Empty)) := by
  have hne' : w2 ≠ w1 := fun e => hne e.symm
  have hU : (h.RegisterPeerPickerWithWorkspace w1 u s).heap.deref w2 = h.deref w2 :=
    assign_deref_ne h w1 w2 _ hne'
  have hP : (h.RegisterPerGroupPeerPickerWithWorkspace w1 p s).heap.deref w2 = h.deref w2 :=
    assign_deref_ne h w1 w2 _ hne'
  exact ⟨⟨hU, heap_frame h _ w2 u2 p2 groupName s' hU⟩,
    ⟨hP, heap_frame h _ w2 u2 p2 groupName s' hP⟩,
    register_result_ok_iff (h.deref w2) u2 p2 s'⟩

/-- Witness of C14: in the example memory, a uniform registration on the
empty workspace at address 0 leaves the workspace at address 1 as it was, and
resolving "A" there still yields the router of its own factory. -/
theorem workspaces_isolated_witness :
    (0 : WorkspacePtr) ≠ 1 ∧
    (exampleHeap.RegisterPeerPickerWithWorkspace 0 loggingUniformFactory []).heap.deref 1
      = exampleHeap.deref 1 ∧
    ((exampleHeap.RegisterPeerPickerWithWorkspace 0 loggingUniformFactory []).heap.getPeers 1
      "A" []).result = .ok (singlePeerRouter "A") :=
  ⟨by decide,
    (workspaces_isolated exampleHeap 0 1 loggingUniformFactory none loggingPerGroupFactory none
      "A" [] [] (by decide)).1.1,
    (workspaces_isolated exampleHeap 0 1 loggingUniformFactory none loggingPerGroupFactory none
      "A" [] [] (by decide)).1.2.1.trans rfl⟩

end Workspaces

end Groupcache
